import Mathlib

/-!
Verification of the TagesschauScraper core (`src/tagesschauscraper/tagesschau.py`)
against its natural-language specification.

The Python code is shallowly embedded: BeautifulSoup documents become a `Node`
tree, Python strings are Lean `String`s (with the Python string primitives the
code uses — `strip`, `split`, `replace`, `in`, `sorted`, `int`, decimal
formatting — re-implemented over `List Char` so that everything evaluates by
kernel reduction), raising code returns `Except`, and the external
collaborators (HTTP fetch, content hash, datetime normalisation) are
parameters of the pipeline functions.
-/

namespace Tagesschau

/-! ## Python string primitives -/

/-- Python `str.strip()` on a list of characters: drop whitespace from both
ends. -/
def pyStripL (s : List Char) : List Char :=
  ((s.dropWhile Char.isWhitespace).reverse.dropWhile Char.isWhitespace).reverse

/-- Python `str.strip()`. -/
def pyStrip (s : String) : String := String.mk (pyStripL s.data)

/-- Python `s.replace("\n", " ")` (the only `replace` the source uses; for a
one-character pattern and replacement, `replace` is a character map). -/
def pyReplaceNl (s : String) : String :=
  String.mk (s.data.map (fun c => if c = '\n' then ' ' else c))

/-- Python `needle in hay` on strings: substring test. -/
def containsSub (hay needle : List Char) : Bool :=
  if needle.isPrefixOf hay then true
  else
    match hay with
    | [] => false
    | _ :: t => containsSub t needle

/-- Python's lexicographic string comparison `a <= b` (by code point), as used
by `sorted`. -/
def lexLe : List Char → List Char → Bool
  | [], _ => true
  | _ :: _, [] => false
  | a :: as, b :: bs =>
    if a < b then true
    else if b < a then false
    else lexLe as bs

/-- Python `a <= b` on strings. -/
def pyStrLe (a b : String) : Bool := lexLe a.data b.data

/-- Python `sorted` on a list of strings: any sorting algorithm w.r.t. the
(total, antisymmetric) lexicographic order produces the same list, so we use
insertion sort. -/
def pySorted (l : List String) : List String :=
  List.insertionSort (fun a b => pyStrLe a b = true) l

/-- Helper for Python `str.split()` (split on whitespace runs, no empty
tokens): `acc` holds the current token, reversed. -/
def splitWsAux : List Char → List Char → List (List Char)
  | [], acc => if acc.isEmpty then [] else [acc.reverse]
  | c :: cs, acc =>
    if c.isWhitespace then
      if acc.isEmpty then splitWsAux cs [] else acc.reverse :: splitWsAux cs []
    else splitWsAux cs (c :: acc)

/-- Python `str.split()` with no argument: split on runs of whitespace,
discarding empty tokens. -/
def pySplit (s : List Char) : List (List Char) := splitWsAux s []

/-- Decimal digits of `n`, least significant first, with explicit fuel so the
definition is structurally recursive (and hence kernel-evaluable). Called with
`fuel = n`, which is always enough. -/
def decDigitsLE : Nat → Nat → List Nat
  | 0, _ => []
  | fuel + 1, n => if n = 0 then [] else n % 10 :: decDigitsLE fuel (n / 10)

/-- Python `str(n)` for a non-negative integer: its decimal digit characters,
most significant first. -/
def decRepr (n : Nat) : List Char :=
  if n = 0 then ['0'] else ((decDigitsLE n n).reverse).map Nat.digitChar

/-- Numeric value of a digit string (most significant first); helper for
`pyInt?`. -/
def digitsVal? (s : List Char) : Option Nat :=
  if s ≠ [] ∧ s.all Char.isDigit then
    some (s.foldl (fun a c => a * 10 + (c.toNat - 48)) 0)
  else none

/-- Python `int(s)`, returning `none` where Python raises `ValueError`.
(Restricted to an optional sign followed by ASCII digits; Python additionally
tolerates surrounding whitespace and underscores, which never occur here.) -/
def pyInt? (s : List Char) : Option Int :=
  match s with
  | [] => (digitsVal? []).map (fun n => (n : Int))
  | c :: rest =>
    if c = '-' then (digitsVal? rest).map (fun n => -(n : Int))
    else if c = '+' then (digitsVal? rest).map (fun n => (n : Int))
    else (digitsVal? (c :: rest)).map (fun n => (n : Int))

/-- Python `str(n).zfill`-like left zero-padding used by `strftime` field
formatting. -/
def zfill (k : Nat) (s : List Char) : List Char :=
  List.replicate (k - s.length) '0' ++ s

/-! ## DOM model

A `BeautifulSoup` tree is either a text node (`NavigableString`) or an element
(`Tag`) with a name, a (possibly empty) list of CSS classes, an optional
`href` attribute and a list of children.  `class` and `href` are the only
attributes the source ever reads. -/

inductive Node where
  | text (s : String)
  | elem (name : String) (classes : List String) (href : Option String)
      (children : List Node)

def Node.isElem : Node → Bool
  | .text _ => false
  | .elem _ _ _ _ => true

/-- The `name` of a `Tag` (`none` for a `NavigableString`). -/
def Node.tagName : Node → Option String
  | .text _ => none
  | .elem n _ _ _ => some n

mutual

/-- The strings of all descendant text nodes, in document order
(bs4 `Tag._all_strings`). -/
def getTexts : Node → List String
  | .text s => [s]
  | .elem _ _ _ cs => getTextsList cs

def getTextsList : List Node → List String
  | [] => []
  | c :: cs => getTexts c ++ getTextsList cs

end

/-- bs4 `get_text()`: concatenation of all descendant strings, verbatim. -/
def get_text (n : Node) : String := String.join (getTexts n)

/-- bs4 `get_text(strip=True)`: each descendant string stripped, empty results
dropped, joined with the empty separator. -/
def get_text_strip (n : Node) : String :=
  String.join (((getTexts n).map pyStrip).filter (fun s => s ≠ ""))

/-- bs4 `get_text(strip=True, separator=" ")`. -/
def get_text_strip_sep (n : Node) : String :=
  String.intercalate " " (((getTexts n).map pyStrip).filter (fun s => s ≠ ""))

mutual

/-- All matching element nodes in the subtree rooted at `n` — including `n`
itself — in document (pre-)order.  Helper for `find_all`. -/
def findAllFrom (p : Node → Bool) : Node → List Node
  | .text _ => []
  | .elem nm cl hr cs =>
    (if p (.elem nm cl hr cs) then [Node.elem nm cl hr cs] else []) ++
      findAllFromList p cs

def findAllFromList (p : Node → Bool) : List Node → List Node
  | [] => []
  | c :: cs => findAllFrom p c ++ findAllFromList p cs

end

/-- bs4 `find_all`: matching elements among the *descendants* of `n` (the
node itself is not a candidate), in document order.  Text nodes are never
candidates — bs4 only yields `Tag`s for name/attribute filters (and for
`find_all()` with no filter at all). -/
def find_all (p : Node → Bool) (n : Node) : List Node :=
  match n with
  | .text _ => []
  | .elem _ _ _ cs => findAllFromList p cs

/-- bs4 `find`: the first match of `find_all` (bs4 implements `find` as
`find_all(..., limit=1)`). -/
def find (p : Node → Bool) (n : Node) : Option Node := (find_all p n).head?

/-- bs4 matching of a `class_` filter string against an element: the string
matches if it equals one of the element's classes, or the element's full
(space-joined) `class` attribute value. -/
def matchesClass (c : String) : Node → Bool
  | .text _ => false
  | .elem _ classes _ _ =>
    classes.contains c || (String.intercalate " " classes == c)

/-- Matching on the tag name (bs4 `find('strong')`, `find_all('span')`). -/
def matchesName (nm : String) : Node → Bool
  | .text _ => false
  | .elem name _ _ _ => name == nm

mutual

/-- All nodes (both elements and text) in the subtree rooted at `n`,
including `n`, in document order.  Specification-side companion of
`findAllFrom`, used to state what the traversal visits. -/
def allNodesFrom : Node → List Node
  | .text s => [Node.text s]
  | .elem nm cl hr cs => Node.elem nm cl hr cs :: allNodesList cs

def allNodesList : List Node → List Node
  | [] => []
  | c :: cs => allNodesFrom c ++ allNodesList cs

end

/-- All descendant nodes of `n` (elements and text), in document order. -/
def allNodes : Node → List Node
  | .text _ => []
  | .elem _ _ _ cs => allNodesList cs

mutual

/-- Helper for `remove_elements` on one node: dropped entirely when its name
is one of the removed tags, kept (with its children filtered) otherwise. -/
def removeElemsNode (tags : List String) : Node → List Node
  | .text s => [Node.text s]
  | .elem nm cl hr cs =>
    if tags.contains nm then []
    else [Node.elem nm cl hr (removeElemsList tags cs)]

def removeElemsList (tags : List String) : List Node → List Node
  | [] => []
  | c :: rest => removeElemsNode tags c ++ removeElemsList tags rest

end

/-- `TagesschauArticle.remove_elements`: remove (`decompose`) every subtree
whose root element's name is in `tags` (the document root itself is the
`BeautifulSoup` object and is never a candidate).  The source loops over the
tag names and decomposes each match; since decomposition of one subtree never
creates or destroys matches of another name outside it, the sequential loop
equals this simultaneous filter. -/
def removeElems (tags : List String) : Node → Node
  | .text s => .text s
  | .elem nm cl hr cs => .elem nm cl hr (removeElemsList tags cs)

/-! ## Python exceptions and external collaborators -/

/-- The Python exceptions the embedded code can raise. -/
inductive PyErr where
  | valueError
  | keyError
  | indexError
deriving DecidableEq

/-- The failure modes of the HTTP fetch collaborator
(`retrieve.get_soup_from_url`).  `other` stands for any `BaseException` not
covered by the first three. -/
inductive FetchErr where
  | tooManyRedirects
  | gaierror
  | connectionError
  | other
deriving DecidableEq

/-! ## Dates -/

/-- A Python `datetime.date` value. -/
structure Date where
  year : Nat
  month : Nat
  day : Nat
deriving DecidableEq

def isLeapYear (y : Nat) : Bool :=
  y % 4 = 0 && (y % 100 ≠ 0 || y % 400 = 0)

def daysInMonth (y m : Nat) : Nat :=
  if m = 2 then (if isLeapYear y then 29 else 28)
  else if m = 4 ∨ m = 6 ∨ m = 9 ∨ m = 11 then 30
  else 31

/-- The invariant Python's `date` type maintains for its fields. -/
def isValidDate (d : Date) : Bool :=
  1 ≤ d.year && d.year ≤ 9999 && 1 ≤ d.month && d.month ≤ 12 &&
    1 ≤ d.day && d.day ≤ daysInMonth d.year d.month

/-- The Python `date(year, month, day)` constructor: validates its arguments
and raises `ValueError` (here: `none`) outside the supported calendar range. -/
def pyDate? (y m d : Int) : Option Date :=
  if 1 ≤ y ∧ y ≤ 9999 ∧ 1 ≤ m ∧ m ≤ 12 ∧ 1 ≤ d ∧
      d ≤ (daysInMonth y.toNat m.toNat : Int) then
    some ⟨y.toNat, m.toNat, d.toNat⟩
  else none

/-- Modelled from the spec: `constants.german_month_names`, the "fixed 12-name
calendar table" of German month names (module `constants` is not part of the
sources).  Indexed by month number 1–12, with a placeholder at index 0 so that
`list[month]` and `list.index(name)` are mutually inverse. -/
def german_month_names : List String :=
  ["", "Januar", "Februar", "März", "April", "Mai", "Juni", "Juli",
   "August", "September", "Oktober", "November", "Dezember"]

/-- `Archive.transform_date_to_date_in_headline`: the f-string
`f"{day}. {month_name} {year}"`.  A `date` argument guarantees
`1 ≤ month ≤ 12`, so the list access is in range (`getD` with an unused
default). -/
def transform_date_to_date_in_headline (d : Date) : String :=
  String.mk (decRepr d.day ++ '.' :: ' ' ::
    (german_month_names.getD d.month "").data ++ ' ' :: decRepr d.year)

/-- `Archive.transform_date_in_headline_to_date`:
`day_raw, month_raw, year_raw = s.split()` (raises unless exactly three
tokens), `day = int(day_raw[:-1])`, `month = names.index(month_raw)`,
`year = int(year_raw)`, then the validating `date(year, month, day)`
constructor.  All raising steps are `none`. -/
def transform_date_in_headline_to_date (s : String) : Option Date :=
  match pySplit s.data with
  | [day_raw, month_raw, year_raw] =>
    match pyInt? day_raw.dropLast,
        List.indexOf? (String.mk month_raw) german_month_names,
        pyInt? year_raw with
    | some day, some month, some year => pyDate? year (month : Int) day
    | _, _, _ => none
  | _ => none

/-! ## Archive URL builder -/

/-- Python `date.strftime("%Y-%m-%d")`: zero-padded year, month, day. -/
def strftime_Ymd (d : Date) : String :=
  String.mk (zfill 4 (decRepr d.year) ++ '-' :: zfill 2 (decRepr d.month) ++
    '-' :: zfill 2 (decRepr d.day))

/-- `create_url_for_news_archive`: the `ressort` query parameter is appended
for the three named categories, omitted for `"all"`, and any other category
raises `ValueError`. -/
def create_url_for_news_archive (date_ : Date) (category : String) :
    Except PyErr String :=
  let categories := ["wirtschaft", "inland", "ausland"]
  let date_str := strftime_Ymd date_
  if categories.contains category then
    .ok ("https://www.tagesschau.de/archiv/?datum=" ++ date_str ++
      "&ressort=" ++ category)
  else if category = "all" then
    .ok ("https://www.tagesschau.de/archiv/?datum=" ++ date_str)
  else
    .error .valueError

/-! ## Teaser records -/

/-- The `teaser_info` dictionary.  Its keys are fixed by the code (`date`,
`topline`, `headline`, `shorttext`, `link` from field extraction, `tags` from
enrichment, `id` from processing), so the dict is embedded as a record of
optional fields — `none` means the key is absent. -/
structure TeaserInfo where
  date : Option String := none
  topline : Option String := none
  headline : Option String := none
  shorttext : Option String := none
  link : Option String := none
  tags : Option String := none
  id : Option String := none
deriving DecidableEq

/-- `teaser_info.keys()`: the names of the present fields. -/
def pyKeys (t : TeaserInfo) : List String :=
  (if t.date.isSome then ["date"] else []) ++
  (if t.topline.isSome then ["topline"] else []) ++
  (if t.headline.isSome then ["headline"] else []) ++
  (if t.shorttext.isSome then ["shorttext"] else []) ++
  (if t.link.isSome then ["link"] else []) ++
  (if t.tags.isSome then ["tags"] else []) ++
  (if t.id.isSome then ["id"] else [])

/-- `Teaser.required_attributes` (`topline` is commented out in the source). -/
def required_attributes : List String := ["date", "headline", "shorttext", "link"]

/-- The `href` attribute of an element (`tag.get("href")`). -/
def Node.href? : Node → Option String
  | .text _ => none
  | .elem _ _ h _ => h

/-- `Teaser.extract_info_from_teaser`: for each field in the order
`date, topline, headline, shorttext, link`, find the first element of class
`teaser-right__<field>`; text fields take `get_text(strip=True, separator=" ")`,
the link field takes the `href` attribute — prefixing the site origin unless
the href contains `"www."` — and raises `ValueError` when a matched link
element has no string `href`. -/
def extract_info_from_teaser (soup : Node) : Except PyErr TeaserInfo :=
  let info : TeaserInfo := {}
  let info := match find (matchesClass "teaser-right__date") soup with
    | some t => { info with date := some (get_text_strip_sep t) }
    | none => info
  let info := match find (matchesClass "teaser-right__topline") soup with
    | some t => { info with topline := some (get_text_strip_sep t) }
    | none => info
  let info := match find (matchesClass "teaser-right__headline") soup with
    | some t => { info with headline := some (get_text_strip_sep t) }
    | none => info
  let info := match find (matchesClass "teaser-right__shorttext") soup with
    | some t => { info with shorttext := some (get_text_strip_sep t) }
    | none => info
  match find (matchesClass "teaser-right__link") soup with
  | none => .ok info
  | some t =>
    match t.href? with
    | some href =>
      if !containsSub href.data "www.".data then
        .ok { info with link := some ("https://www.tagesschau.de" ++ href) }
      else
        .ok { info with link := some href }
    | none => .error .valueError

/-- `Article.extract_article_tags`: the text of each tag button inside the
`taglist` container, sorted and comma-joined; an absent container yields the
empty tag list.  (The `hasattr(tag, "get_text")` guard in the source is
always true for the `Tag`s `find_all` returns.) -/
def extract_article_tags (soup : Node) : String :=
  match find (matchesClass "taglist") soup with
  | some tags_group =>
    let tags := (find_all (matchesClass "tag-btn tag-btn--light-grey")
      tags_group).map get_text_strip
    String.intercalate "," (pySorted tags)
  | none => String.intercalate "," (pySorted [])

/-- `Teaser.enrich_teaser_info_with_article_tags`: `teaser_info["link"]` is
read *before* the `try` block (a missing key raises), then the article is
fetched; every fetch failure — `TooManyRedirects`, `gaierror`,
`ConnectionError` and the final `except BaseException` — is caught, printed,
and the unmodified record is returned. -/
def enrich_teaser_info_with_article_tags
    (fetch : String → Except FetchErr Node) (teaser_info : TeaserInfo) :
    Except PyErr TeaserInfo :=
  match teaser_info.link with
  | none => .error .keyError
  | some article_link =>
    match fetch article_link with
    | .ok article_soup =>
      .ok { teaser_info with tags := some (extract_article_tags article_soup) }
    | .error _ => .ok teaser_info

/-- `Teaser.process_info`: `id` is the content hash of `teaser_info["link"]`
and `date` is re-parsed by `helper.transform_datetime_str`; both collaborators
(`helper` is not part of the sources) are passed in as function parameters.
A missing `link` or `date` key raises `KeyError`. -/
def process_info (hashFn dtFn : String → String) (teaser_info : TeaserInfo) :
    Except PyErr TeaserInfo :=
  match teaser_info.link with
  | none => .error .keyError
  | some l =>
    match teaser_info.date with
    | none => .error .keyError
    | some d => .ok { teaser_info with id := some (hashFn l), date := some (dtFn d) }

/-- `Teaser.is_teaser_info_valid`:
`not self.required_attributes.difference(teaser_info.keys())`. -/
def is_teaser_info_valid (teaser_info : TeaserInfo) : Bool :=
  (required_attributes.filter
    (fun k => !((pyKeys teaser_info).contains k))).isEmpty

/-- The body of the loop in `TagesschauScraper._extract_info_for_all_teaser`
for one teaser: extraction, enrichment, processing. -/
def processOne (hashFn dtFn : String → String)
    (fetch : String → Except FetchErr Node) (t : Node) :
    Except PyErr TeaserInfo := do
  let info ← extract_info_from_teaser t
  let info ← enrich_teaser_info_with_article_tags fetch info
  process_info hashFn dtFn info

/-- The loop of `TagesschauScraper._extract_info_for_all_teaser` over the
teaser elements: process each in page order, appending it to the result when
valid; an uncaught exception from any stage aborts the whole loop (there is no
`try` around the loop body). -/
def extractLoop (hashFn dtFn : String → String)
    (fetch : String → Except FetchErr Node) :
    List Node → Except PyErr (List TeaserInfo)
  | [] => .ok []
  | t :: ts => do
    let info ← processOne hashFn dtFn fetch t
    let rest ← extractLoop hashFn dtFn fetch ts
    pure ((if is_teaser_info_valid info then [info] else []) ++ rest)

/-- `TagesschauScraper._extract_info_for_all_teaser` (the leading underscore
is dropped): run the extraction loop over all elements of class
`"teaser-right twelve"`. -/
def extract_info_for_all_teaser (hashFn dtFn : String → String)
    (fetch : String → Except FetchErr Node) (soup : Node) :
    Except PyErr (List TeaserInfo) :=
  extractLoop hashFn dtFn fetch
    (find_all (matchesClass "teaser-right twelve") soup)

/-! ## Markdown converter -/

/-- `TagesschauArticle.convert_to_markdown`: the per-node conversion rules, in
the source's branch order.  On an `h1` whose `find_all('span')` result is a
one-element list, `span_elements[1]` raises `IndexError`. -/
def convert_to_markdown : Node → Except PyErr String
  | .text s => .ok s
  | .elem nm classes hr cs =>
    if classes.contains "textabsatz" then
      match find (matchesName "strong") (.elem nm classes hr cs) with
      | some strong_text => .ok (" **" ++ get_text strong_text ++ "** ")
      | none => .ok (get_text (.elem nm classes hr cs))
    else if nm = "h1" then
      match find_all (matchesName "span") (.elem nm classes hr cs) with
      | [] => .ok ("# " ++ pyReplaceNl (get_text (.elem nm classes hr cs)) ++ "\n\n")
      | [_] => .error .indexError
      | s0 :: s1 :: _ =>
        .ok ("# " ++ pyReplaceNl (get_text_strip s0) ++ " - " ++
          pyReplaceNl (get_text_strip s1))
    else if nm = "h2" then
      .ok ("\n\n## " ++ pyReplaceNl (get_text (.elem nm classes hr cs)) ++ "\n\n")
    else
      .ok ""

/-- `TagesschauArticle.get_markdown_content`: remove the non-content subtrees,
then fold `convert_to_markdown` over `soup.find_all()` — every *element* of
the post-removal tree in document order — concatenating the pieces.
`['header', 'footer', 'aside']` is the constructor's default removal list. -/
def get_markdown_content (tags_to_remove : List String) (soup : Node) :
    Except PyErr String :=
  let soup2 := removeElems tags_to_remove soup
  (find_all (fun _ => true) soup2).foldlM
    (fun acc e => (convert_to_markdown e).map (fun m => acc ++ m)) ""

deriving instance DecidableEq for Except

/-! ## Proof-side helper definitions -/

/-- Value of a little-endian digit list (proof-side companion of
`decDigitsLE`). -/
def ofDigitsLE : List Nat → Nat
  | [] => 0
  | d :: ds => d + 10 * ofDigitsLE ds

/-! ## Concrete sample inputs (used by witnesses and counterexamples) -/

/-- A stand-in content hash for `helper.get_hash_from_string`. -/
def hashSample : String → String := fun s => "id:" ++ s

/-- A stand-in datetime normaliser for `helper.transform_datetime_str`. -/
def dtSample : String → String := fun s => s

/-- A fetch collaborator that fails on every URL. -/
def fetchFailSample : String → Except FetchErr Node := fun _ => .error .connectionError

/-- A complete teaser block: date, headline, shorttext and a relative link. -/
def teaserComplete : Node := .elem "div" ["teaser-right", "twelve"] none [
  .elem "span" ["teaser-right__date"] none [.text "14.10.2022 • 10:00 Uhr"],
  .elem "span" ["teaser-right__headline"] none [.text "Head"],
  .elem "p" ["teaser-right__shorttext"] none [.text "Short"],
  .elem "a" ["teaser-right__link"] (some "/inland/x.html") []]

/-- A teaser block whose matched link element has no `href` attribute. -/
def teaserNoHref : Node := .elem "div" ["teaser-right", "twelve"] none [
  .elem "span" ["teaser-right__date"] none [.text "14.10.2022 • 10:00 Uhr"],
  .elem "span" ["teaser-right__headline"] none [.text "Head2"],
  .elem "p" ["teaser-right__shorttext"] none [.text "Short2"],
  .elem "a" ["teaser-right__link"] none []]

/-- The record `teaserComplete` produces under `hashSample`/`dtSample` with a
failing fetch. -/
def recordComplete : TeaserInfo :=
  { date := some "14.10.2022 • 10:00 Uhr", headline := some "Head",
    shorttext := some "Short",
    link := some "https://www.tagesschau.de/inland/x.html",
    id := some "id:https://www.tagesschau.de/inland/x.html" }

/-- An archive page with a malformed-link teaser followed by a complete
sibling teaser. -/
def pageMixed : Node := .elem "body" [] none [teaserNoHref, teaserComplete]

/-- An archive page holding only the complete teaser. -/
def pageComplete : Node := .elem "body" [] none [teaserComplete]

/-- An `h1` with two span descendants. -/
def h1TwoSpans : Node := .elem "h1" [] none [
  .elem "span" [] none [.text "Topic"], .elem "span" [] none [.text "Title"]]

/-- An `h1` with exactly one span descendant. -/
def h1OneSpan : Node := .elem "h1" [] none [.elem "span" [] none [.text "Only"]]

/-- An `h1` with plain text content. -/
def h1Plain : Node := .elem "h1" [] none [.text "Hello\nWorld"]

/-- A body paragraph with no bold child and untrimmed text. -/
def paraPlain : Node := .elem "p" ["textabsatz"] none [.text "  Hi  "]

/-- A body paragraph with surrounding text and a bold child. -/
def paraStrong : Node := .elem "p" ["textabsatz"] none [.text "lead ",
  .elem "strong" [] none [.text "bold"], .text " tail"]

/-- An article body whose only content is a bare text node. -/
def docTextOnly : Node := .elem "article" [] none [.text "hello"]

/-- An article with tags in the order b, a. -/
def articleTagsBA : Node := .elem "article" [] none [
  .elem "div" ["taglist"] none [
    .elem "a" ["tag-btn", "tag-btn--light-grey"] none [.text "b"],
    .elem "a" ["tag-btn", "tag-btn--light-grey"] none [.text "a"]]]

/-- An article with tags in the order a, b. -/
def articleTagsAB : Node := .elem "article" [] none [
  .elem "div" ["taglist"] none [
    .elem "a" ["tag-btn", "tag-btn--light-grey"] none [.text "a"],
    .elem "a" ["tag-btn", "tag-btn--light-grey"] none [.text "b"]]]

/-- An article with no tag-list container. -/
def articleNoTags : Node := .elem "article" [] none [.elem "div" [] none []]

/-- The record `teaserComplete` produces at the extraction stage (before
processing adds the `id`). -/
def preRecordComplete : TeaserInfo :=
  { date := some "14.10.2022 • 10:00 Uhr", headline := some "Head",
    shorttext := some "Short",
    link := some "https://www.tagesschau.de/inland/x.html" }

/-- A record with every required field except `shorttext`. -/
def recordNoShort : TeaserInfo :=
  { date := some "d", headline := some "h", link := some "l" }

/-- What `process_info` adds to a record carrying `link = some l` and
`date = some dstr`. -/
def processedRecord (hashFn dtFn : String → String) (l dstr : String)
    (info : TeaserInfo) : TeaserInfo :=
  { info with id := some (hashFn l), date := some (dtFn dstr) }

/-! ## Helper lemmas: `Except` plumbing -/

theorem except_bind_ok {ε α β : Type} (a : α) (k : α → Except ε β) :
    (Except.ok a : Except ε α).bind k = k a := rfl

theorem except_bind_error {ε α β : Type} (e : ε) (k : α → Except ε β) :
    (Except.error e : Except ε α).bind k = .error e := rfl

theorem except_bind_pure_eq_map {ε α β : Type} (x : Except ε α) (g : α → β) :
    x.bind (fun a => (Except.ok (g a) : Except ε β)) = x.map g := by
  cases x <;> rfl

/-- The one-step unfolding of the extraction loop, with the do-notation
spelled out. -/
theorem extractLoop_cons (hashFn dtFn : String → String)
    (fetch : String → Except FetchErr Node) (t : Node) (ts : List Node) :
    extractLoop hashFn dtFn fetch (t :: ts) =
      (processOne hashFn dtFn fetch t).bind (fun info =>
        (extractLoop hashFn dtFn fetch ts).bind (fun rest =>
          .ok ((if is_teaser_info_valid info then [info] else []) ++ rest))) := rfl

/-- `processOne` is the three-stage composition. -/
theorem processOne_eq (hashFn dtFn : String → String)
    (fetch : String → Except FetchErr Node) (t : Node) :
    processOne hashFn dtFn fetch t =
      (extract_info_from_teaser t).bind (fun info =>
        (enrich_teaser_info_with_article_tags fetch info).bind
          (process_info hashFn dtFn)) := rfl

/-! ## Helper lemmas: validity -/

/-- Validity in terms of the four option fields. -/
theorem valid_iff_fields (info : TeaserInfo) :
    is_teaser_info_valid info = true ↔
      (info.date.isSome = true ∧ info.headline.isSome = true ∧
        info.shorttext.isSome = true ∧ info.link.isSome = true) := by
  obtain ⟨d, t, h, s, l, tg, i⟩ := info
  cases d <;> cases t <;> cases h <;> cases s <;> cases l <;> cases tg <;>
    cases i <;> simp +decide [is_teaser_info_valid, pyKeys, required_attributes]

/-- Every record an `ok` run of the extraction loop returns is valid. -/
theorem extractLoop_ok_valid (hashFn dtFn : String → String)
    (fetch : String → Except FetchErr Node) :
    ∀ (ts : List Node) (out : List TeaserInfo),
      extractLoop hashFn dtFn fetch ts = .ok out →
      ∀ r ∈ out, is_teaser_info_valid r = true := by
  intro ts
  induction ts with
  | nil =>
    intro out h r hr
    simp only [extractLoop] at h
    cases h
    simp at hr
  | cons t ts ih =>
    intro out h r hr
    rw [extractLoop_cons] at h
    cases hp : processOne hashFn dtFn fetch t with
    | error e => rw [hp, except_bind_error] at h; cases h
    | ok info =>
      rw [hp, except_bind_ok] at h
      cases hl : extractLoop hashFn dtFn fetch ts with
      | error e => rw [hl, except_bind_error] at h; cases h
      | ok rest =>
        rw [hl, except_bind_ok] at h
        cases h
        rcases List.mem_append.mp hr with hmem | hmem
        · by_cases hv : is_teaser_info_valid info = true
          · simp [hv] at hmem; cases hmem; exact hv
          · simp [hv] at hmem
        · exact ih rest hl r hmem

/-- Membership in a singleton-or-empty conditional list. -/
theorem mem_ite_singleton (c : Bool) (s k : String) :
    (k ∈ if c = true then [s] else []) ↔ (c = true ∧ k = s) := by
  cases c <;> simp

/-- Membership in the key set, field by field. -/
theorem mem_pyKeys_iff (k : String) (info : TeaserInfo) :
    k ∈ pyKeys info ↔
      ((info.date.isSome = true ∧ k = "date") ∨
        (info.topline.isSome = true ∧ k = "topline") ∨
        (info.headline.isSome = true ∧ k = "headline") ∨
        (info.shorttext.isSome = true ∧ k = "shorttext") ∨
        (info.link.isSome = true ∧ k = "link") ∨
        (info.tags.isSome = true ∧ k = "tags") ∨
        (info.id.isSome = true ∧ k = "id")) := by
  simp [pyKeys, List.mem_append, mem_ite_singleton]

/-! ## Claim C1 (corrected) -/

/-- C1, counterexample: on an archive page whose first teaser block has a
matched link element without `href` and whose second teaser block is complete
and valid, the extraction raises `ValueError` and produces *no* output — the
valid sibling teaser does not appear, contradicting the claim that a
malformed link only drops its own teaser.  (Alone, the sibling would have
produced a record.) -/
theorem C1_counterexample :
    extract_info_for_all_teaser hashSample dtSample fetchFailSample pageMixed =
      .error .valueError ∧
    extract_info_for_all_teaser hashSample dtSample fetchFailSample pageComplete =
      .ok [recordComplete] := by
  exact ⟨by decide, by decide⟩

/-- C1, amended: a matched link element with a missing `href` is a hard
`ValueError` for the *whole page*, not just for that teaser: field extraction
raises, the extraction loop has no per-teaser handler, so the error aborts it
and no sibling teaser (before or after) is reflected in any output. -/
theorem C1_amended_malformed_link_aborts_page (hashFn dtFn : String → String)
    (fetch : String → Except FetchErr Node) (t : Node) (ts : List Node)
    (el : Node)
    (hfind : find (matchesClass "teaser-right__link") t = some el)
    (hhref : el.href? = none) :
    extract_info_from_teaser t = .error .valueError ∧
    extractLoop hashFn dtFn fetch (t :: ts) = .error .valueError := by
  have hex : extract_info_from_teaser t = .error .valueError := by
    simp [extract_info_from_teaser, hfind, hhref]
  refine ⟨hex, ?_⟩
  rw [extractLoop_cons, processOne_eq, hex, except_bind_error, except_bind_error]

/-- C1, witness for the amended claim at a concrete page. -/
theorem C1_amended_witness :
    find (matchesClass "teaser-right__link") teaserNoHref =
      some (Node.elem "a" ["teaser-right__link"] none []) ∧
    (extract_info_from_teaser teaserNoHref = .error .valueError ∧
      extractLoop hashSample dtSample fetchFailSample
        [teaserNoHref, teaserComplete] = .error .valueError) :=
  ⟨rfl, C1_amended_malformed_link_aborts_page hashSample dtSample
    fetchFailSample teaserNoHref [teaserComplete]
    (Node.elem "a" ["teaser-right__link"] none []) rfl rfl⟩

/-! ## Claim C2 (code bug) -/

/-- C2: evaluation of the heading rule.  With two span descendants and with
no spans the converter renders what the claim says, but on an `h1` with
*exactly one* span child the code takes the span branch (its guard is
`len(span_elements)`, i.e. non-emptiness) and `span_elements[1]` raises
`IndexError` — instead of rendering `"# <full text>\n\n"` as the claim
states. -/
theorem C2_code_bug_h1_one_span :
    convert_to_markdown h1OneSpan = .error .indexError ∧
    convert_to_markdown h1TwoSpans = .ok "# Topic - Title" ∧
    convert_to_markdown h1Plain = .ok "# Hello World\n\n" :=
  ⟨by decide, by decide, by decide⟩

/-! ## Claim C4 (confirmed) -/

/-- C4: when the article fetch for a teaser fails with *any* fetch error, the
error is caught (the enrichment returns `ok` with the unchanged record, no
tags added) and the loop result is just a map over the processing of the
remaining teasers — so the failing fetch aborts neither this teaser nor its
successors.  (The teaser must carry `link` — which it does whenever a fetch
was attempted — and `date`, which the processing stage reads.) -/
theorem C4_fetch_error_isolated (hashFn dtFn : String → String)
    (fetch : String → Except FetchErr Node) (t : Node) (ts : List Node)
    (info : TeaserInfo) (l dstr : String) (e : FetchErr)
    (hex : extract_info_from_teaser t = .ok info)
    (hl : info.link = some l) (hd : info.date = some dstr)
    (hf : fetch l = .error e) :
    enrich_teaser_info_with_article_tags fetch info = .ok info ∧
    extractLoop hashFn dtFn fetch (t :: ts) =
      (extractLoop hashFn dtFn fetch ts).map (fun rest =>
        (if is_teaser_info_valid (processedRecord hashFn dtFn l dstr info) then
          [processedRecord hashFn dtFn l dstr info]
        else []) ++ rest) := by
  have henr : enrich_teaser_info_with_article_tags fetch info = .ok info := by
    simp [enrich_teaser_info_with_article_tags, hl, hf]
  have hproc : process_info hashFn dtFn info =
      .ok (processedRecord hashFn dtFn l dstr info) := by
    simp [process_info, processedRecord, hl, hd]
  refine ⟨henr, ?_⟩
  rw [extractLoop_cons, processOne_eq, hex, except_bind_ok, henr,
    except_bind_ok, hproc, except_bind_ok]
  exact except_bind_pure_eq_map _ _

/-- C4, witness: concrete two-teaser page under an always-failing fetch. -/
theorem C4_witness :
    enrich_teaser_info_with_article_tags fetchFailSample preRecordComplete =
      .ok preRecordComplete ∧
    extractLoop hashSample dtSample fetchFailSample
        [teaserComplete, teaserComplete] =
      (extractLoop hashSample dtSample fetchFailSample [teaserComplete]).map
        (fun rest =>
          (if is_teaser_info_valid (processedRecord hashSample dtSample
              "https://www.tagesschau.de/inland/x.html"
              "14.10.2022 • 10:00 Uhr" preRecordComplete) then
            [processedRecord hashSample dtSample
              "https://www.tagesschau.de/inland/x.html"
              "14.10.2022 • 10:00 Uhr" preRecordComplete]
          else []) ++ rest) :=
  C4_fetch_error_isolated hashSample dtSample fetchFailSample teaserComplete
    [teaserComplete] preRecordComplete
    "https://www.tagesschau.de/inland/x.html" "14.10.2022 • 10:00 Uhr"
    .connectionError (by decide) rfl rfl rfl

/-! ## Claim C5 (confirmed) -/

/-- C5: a teaser record is valid iff its key set contains every required
attribute (`date`, `headline`, `shorttext`, `link`); a record without
`shorttext` is invalid; and every record an `ok` extraction run outputs is
valid — in particular none of them lacks `shorttext`. -/
theorem C5_validity_superset :
    (∀ info : TeaserInfo, is_teaser_info_valid info = true ↔
      ∀ k ∈ required_attributes, k ∈ pyKeys info) ∧
    (∀ info : TeaserInfo, info.shorttext = none →
      is_teaser_info_valid info = false) ∧
    (∀ (hashFn dtFn : String → String) (fetch : String → Except FetchErr Node)
      (ts : List Node) (out : List TeaserInfo),
      extractLoop hashFn dtFn fetch ts = .ok out →
      ∀ r ∈ out, is_teaser_info_valid r = true ∧ r.shorttext.isSome = true) := by
  refine ⟨?_, ?_, ?_⟩
  · intro info
    rw [valid_iff_fields info]
    simp only [required_attributes, List.forall_mem_cons,
      List.forall_mem_ne, mem_pyKeys_iff]
    simp
  · intro info hs
    cases hv : is_teaser_info_valid info with
    | false => rfl
    | true =>
      have h2 := (valid_iff_fields info).mp hv
      rw [hs] at h2
      simp at h2
  · intro hashFn dtFn fetch ts out hok r hr
    have hv := extractLoop_ok_valid hashFn dtFn fetch ts out hok r hr
    exact ⟨hv, ((valid_iff_fields r).mp hv).2.2.1⟩

/-- C5, witness: a concrete record missing only `shorttext` is invalid, and
the complete record satisfies the superset characterisation. -/
theorem C5_witness :
    is_teaser_info_valid recordNoShort = false ∧
    (is_teaser_info_valid recordComplete = true ↔
      ∀ k ∈ required_attributes, k ∈ pyKeys recordComplete) :=
  ⟨C5_validity_superset.2.1 recordNoShort rfl,
    C5_validity_superset.1 recordComplete⟩

/-! ## Claim C9 (corrected) -/

/-- C9, counterexample: a body paragraph without a bold child renders its
*untrimmed* text — the source uses `element.get_text()` with no stripping —
so a paragraph whose text is `"  Hi  "` renders `"  Hi  "`, not the trimmed
`"Hi"` the claim states. -/
theorem C9_counterexample :
    convert_to_markdown paraPlain = .ok "  Hi  " ∧
    pyStrip (get_text paraPlain) = "Hi" ∧ ("  Hi  " : String) ≠ "Hi" :=
  ⟨by decide, by decide, by decide⟩

/-- C9, amended: for an element carrying the `textabsatz` class, a bold
(`strong`) descendant renders as `" **<its text>** "` (the rest of the
paragraph ignored); otherwise the *full, untrimmed* element text is rendered
as-is. -/
theorem C9_amended_textabsatz (nm : String) (classes : List String)
    (hr : Option String) (cs : List Node)
    (hcls : classes.contains "textabsatz" = true) :
    (∀ st, find (matchesName "strong") (.elem nm classes hr cs) = some st →
      convert_to_markdown (.elem nm classes hr cs) =
        .ok (" **" ++ get_text st ++ "** ")) ∧
    (find (matchesName "strong") (.elem nm classes hr cs) = none →
      convert_to_markdown (.elem nm classes hr cs) =
        .ok (get_text (.elem nm classes hr cs))) := by
  constructor
  · intro st hst
    simp only [convert_to_markdown]
    rw [if_pos hcls, hst]
  · intro hnone
    simp only [convert_to_markdown]
    rw [if_pos hcls, hnone]

/-- C9, witness for the amended claim at two concrete paragraphs. -/
theorem C9_amended_witness :
    convert_to_markdown paraStrong = .ok " **bold** " ∧
    convert_to_markdown paraPlain = .ok "  Hi  " :=
  ⟨(C9_amended_textabsatz "p" ["textabsatz"] none
      [.text "lead ", .elem "strong" [] none [.text "bold"], .text " tail"]
      rfl).1 (Node.elem "strong" [] none [.text "bold"]) rfl,
    (C9_amended_textabsatz "p" ["textabsatz"] none [.text "  Hi  "] rfl).2 rfl⟩

/-! ## Claim C10 (confirmed) -/

/-- C10: when the enrichment fetch fails, the returned record *is* the input
record — in particular its `tags` field stays absent; such a record is still
valid whenever `date`, `headline`, `shorttext`, `link` are present; and a
concrete pipeline run under a failing fetch outputs a record with no `tags`
field. -/
theorem C10_enrich_failure_keeps_record
    (fetch : String → Except FetchErr Node) (info : TeaserInfo) (l : String)
    (e : FetchErr) (hl : info.link = some l) (hf : fetch l = .error e) :
    enrich_teaser_info_with_article_tags fetch info = .ok info ∧
    (info.date.isSome = true → info.headline.isSome = true →
      info.shorttext.isSome = true → is_teaser_info_valid info = true) ∧
    (∃ out, extract_info_for_all_teaser hashSample dtSample fetchFailSample
        pageComplete = .ok out ∧ ∃ r ∈ out, r.tags = none) := by
  refine ⟨?_, ?_, ?_⟩
  · simp [enrich_teaser_info_with_article_tags, hl, hf]
  · intro h1 h2 h3
    exact (valid_iff_fields info).mpr ⟨h1, h2, h3, by rw [hl]; rfl⟩
  · exact ⟨[recordComplete], by decide, recordComplete, by decide, rfl⟩

/-- C10, witness at a concrete record and fetch. -/
theorem C10_witness :
    enrich_teaser_info_with_article_tags fetchFailSample preRecordComplete =
      .ok preRecordComplete ∧ preRecordComplete.tags = none :=
  ⟨(C10_enrich_failure_keeps_record fetchFailSample preRecordComplete
      "https://www.tagesschau.de/inland/x.html" .connectionError rfl rfl).1,
    rfl⟩

/-! ## Helper lemmas: the lexicographic string order -/

theorem lexLe_total : ∀ a b : List Char, lexLe a b = true ∨ lexLe b a = true
  | [], _ => Or.inl rfl
  | _ :: _, [] => Or.inr rfl
  | a :: as, b :: bs => by
    rcases lt_trichotomy a b with h | h | h
    · left; simp [lexLe, h]
    · subst h
      rcases lexLe_total as bs with ih | ih
      · left; simp [lexLe, ih]
      · right; simp [lexLe, ih]
    · right; simp [lexLe, h]

theorem lexLe_trans : ∀ a b c : List Char,
    lexLe a b = true → lexLe b c = true → lexLe a c = true
  | [], _, _, _, _ => rfl
  | _ :: _, [], _, h, _ => by simp [lexLe] at h
  | _ :: _, _ :: _, [], _, h => by simp [lexLe] at h
  | a :: as, b :: bs, c :: cs, h1, h2 => by
    by_cases hab : a < b
    · by_cases hbc : b < c
      · simp [lexLe, lt_trans hab hbc]
      · by_cases hcb : c < b
        · simp [lexLe, hbc, hcb] at h2
        · have : b = c := le_antisymm (not_lt.mp hcb) (not_lt.mp hbc)
          subst this
          simp [lexLe, hab]
    · by_cases hba : b < a
      · simp [lexLe, hab, hba] at h1
      · have : a = b := le_antisymm (not_lt.mp hba) (not_lt.mp hab)
        subst this
        by_cases hac : a < c
        · simp [lexLe, hac]
        · by_cases hca : c < a
          · simp [lexLe, hac, hca] at h2
          · have : a = c := le_antisymm (not_lt.mp hca) (not_lt.mp hac)
            subst this
            simp only [lexLe, lt_self_iff_false, if_false] at h1 h2 ⊢
            exact lexLe_trans as bs cs h1 h2

theorem lexLe_antisymm : ∀ a b : List Char,
    lexLe a b = true → lexLe b a = true → a = b
  | [], [], _, _ => rfl
  | [], _ :: _, _, h2 => by simp [lexLe] at h2
  | _ :: _, [], h1, _ => by simp [lexLe] at h1
  | a :: as, b :: bs, h1, h2 => by
    by_cases hab : a < b
    · simp [lexLe, hab, lt_asymm hab] at h2
    · by_cases hba : b < a
      · simp [lexLe, hab, hba] at h1
      · have : a = b := le_antisymm (not_lt.mp hba) (not_lt.mp hab)
        subst this
        simp only [lexLe, lt_self_iff_false, if_false] at h1 h2
        rw [lexLe_antisymm as bs h1 h2]

instance : IsTotal String (fun a b => pyStrLe a b = true) :=
  ⟨fun a b => lexLe_total a.data b.data⟩

instance : IsTrans String (fun a b => pyStrLe a b = true) :=
  ⟨fun a b c => lexLe_trans a.data b.data c.data⟩

instance : IsAntisymm String (fun a b => pyStrLe a b = true) :=
  ⟨fun a b h1 h2 => by
    have h := lexLe_antisymm a.data b.data h1 h2
    cases a; cases b; exact congrArg String.mk h⟩

/-- `sorted` is permutation-invariant: two lists with the same multiset of
strings sort to the same list. -/
theorem pySorted_perm_eq {l₁ l₂ : List String} (h : l₁.Perm l₂) :
    pySorted l₁ = pySorted l₂ :=
  List.eq_of_perm_of_sorted
    ((List.perm_insertionSort _ l₁).trans
      (h.trans (List.perm_insertionSort _ l₂).symm))
    (List.sorted_insertionSort _ l₁) (List.sorted_insertionSort _ l₂)

/-! ## Claim C7 (confirmed) -/

/-- C7: tag extraction comma-joins the lexicographically sorted tag-button
texts, so any two articles whose tag text multisets agree produce the same
stored string; and an article with no `taglist` container yields the empty
string, returned like any other result (the function has no failure path at
all). -/
theorem C7_tags_sorted_join :
    (∀ (s1 s2 g1 g2 : Node),
      find (matchesClass "taglist") s1 = some g1 →
      find (matchesClass "taglist") s2 = some g2 →
      ((find_all (matchesClass "tag-btn tag-btn--light-grey") g1).map
        get_text_strip).Perm
        ((find_all (matchesClass "tag-btn tag-btn--light-grey") g2).map
          get_text_strip) →
      extract_article_tags s1 = extract_article_tags s2) ∧
    (∀ s : Node, find (matchesClass "taglist") s = none →
      extract_article_tags s = "") := by
  constructor
  · intro s1 s2 g1 g2 h1 h2 hp
    simp only [extract_article_tags, h1, h2]
    exact congrArg (String.intercalate ",") (pySorted_perm_eq hp)
  · intro s h
    simp only [extract_article_tags, h]
    rfl

/-- C7, witness: the tag orders b,a and a,b both store `"a,b"`, and an
article without a tag list stores `""`. -/
theorem C7_witness :
    extract_article_tags articleTagsBA = extract_article_tags articleTagsAB ∧
    extract_article_tags articleTagsBA = "a,b" ∧
    extract_article_tags articleNoTags = "" :=
  ⟨C7_tags_sorted_join.1 articleTagsBA articleTagsAB _ _ rfl rfl (by decide),
    by decide, C7_tags_sorted_join.2 articleNoTags rfl⟩

/-! ## Helper lemmas: traversal -/

mutual

theorem findAllFrom_eq_filter (p : Node → Bool) :
    ∀ n : Node,
      findAllFrom p n = (allNodesFrom n).filter (fun x => x.isElem && p x)
  | .text s => by simp [findAllFrom, allNodesFrom, Node.isElem]
  | .elem nm cl hr cs => by
    have h := findAllFromList_eq_filter p cs
    by_cases hp : p (.elem nm cl hr cs) <;>
      simp [findAllFrom, allNodesFrom, Node.isElem, h, hp, List.filter_cons]

theorem findAllFromList_eq_filter (p : Node → Bool) :
    ∀ l : List Node,
      findAllFromList p l = (allNodesList l).filter (fun x => x.isElem && p x)
  | [] => rfl
  | c :: cs => by
    have h1 := findAllFrom_eq_filter p c
    have h2 := findAllFromList_eq_filter p cs
    simp [findAllFromList, allNodesList, List.filter_append, h1, h2]

end

/-! ## Claim C8 (corrected) -/

/-- C8, counterexample: for an article body whose post-removal DOM consists
of one bare text node `"hello"`, the converter outputs `""` — the text node
does not contribute its literal content, because `soup.find_all()` yields
only `Tag`s and the traversal therefore never visits text nodes. -/
theorem C8_counterexample :
    get_markdown_content ["header", "footer", "aside"] docTextOnly = .ok "" ∧
    allNodes docTextOnly = [Node.text "hello"] :=
  ⟨by decide, rfl⟩

/-- C8, amended: the traversal visits exactly the *element* nodes of the
post-removal DOM, in document order (the document-order node list filtered to
elements); text nodes are never visited, so a plain text node contributes
nothing of its own — its content can surface only through the text extraction
of an enclosing paragraph or heading rule. -/
theorem C8_amended_traversal :
    (∀ n : Node,
      find_all (fun _ => true) n = (allNodes n).filter Node.isElem) ∧
    (∀ (tags : List String) (soup : Node),
      get_markdown_content tags soup =
        ((allNodes (removeElems tags soup)).filter Node.isElem).foldlM
          (fun acc e => (convert_to_markdown e).map (fun m => acc ++ m)) "") := by
  have key : ∀ n : Node,
      find_all (fun _ => true) n = (allNodes n).filter Node.isElem := by
    intro n
    cases n with
    | text s => rfl
    | elem nm cl hr cs =>
      have h := findAllFromList_eq_filter (fun _ => true) cs
      simpa [find_all, allNodes] using h
  refine ⟨key, fun tags soup => ?_⟩
  simp only [get_markdown_content, key]

/-! ## Helper lemmas: strings, digits, substrings -/

theorem data_append (a b : String) : (a ++ b).data = a.data ++ b.data := rfl

theorem mem_decDigitsLE_lt :
    ∀ fuel n d : Nat, d ∈ decDigitsLE fuel n → d < 10
  | 0, _, _, h => by simp [decDigitsLE] at h
  | fuel + 1, n, d, h => by
    by_cases hn : n = 0
    · simp [decDigitsLE, hn] at h
    · simp only [decDigitsLE, if_neg hn, List.mem_cons] at h
      rcases h with h | h
      · subst h; exact Nat.mod_lt _ (by norm_num)
      · exact mem_decDigitsLE_lt fuel (n / 10) d h

theorem digitChar_facts (d : Nat) (h : d < 10) :
    (Nat.digitChar d).isDigit = true ∧ (Nat.digitChar d).isWhitespace = false ∧
      (Nat.digitChar d).toNat = 48 + d := by
  interval_cases d <;> exact ⟨rfl, rfl, rfl⟩

theorem decDigitsLE_ne_nil (n : Nat) (h : n ≠ 0) : decDigitsLE n n ≠ [] := by
  obtain ⟨m, rfl⟩ := Nat.exists_eq_succ_of_ne_zero h
  simp [decDigitsLE]

theorem decRepr_ne_nil (n : Nat) : decRepr n ≠ [] := by
  by_cases h : n = 0
  · subst h; decide
  · simp only [decRepr, if_neg h]
    have := decDigitsLE_ne_nil n h
    simpa using this

theorem decRepr_chars (n : Nat) :
    ∀ c ∈ decRepr n, c.isDigit = true ∧ c.isWhitespace = false := by
  intro c hc
  by_cases h : n = 0
  · subst h
    simp [decRepr] at hc
    subst hc; exact ⟨rfl, rfl⟩
  · simp only [decRepr, if_neg h, List.mem_map, List.mem_reverse] at hc
    obtain ⟨d, hd, rfl⟩ := hc
    have hlt := mem_decDigitsLE_lt n n d hd
    exact ⟨(digitChar_facts d hlt).1, (digitChar_facts d hlt).2.1⟩

/-- Zero-padded decimal fields consist of digits. -/
theorem zfill_chars (k n : Nat) : ∀ c ∈ zfill k (decRepr n), c.isDigit = true := by
  intro c hc
  rcases List.mem_append.mp hc with h | h
  · rw [List.eq_of_mem_replicate h]; rfl
  · exact (decRepr_chars n c h).1

/-- Every character of a `strftime("%Y-%m-%d")` result is a digit or a
dash. -/
theorem strftime_chars (d : Date) :
    ∀ c ∈ (strftime_Ymd d).data, c.isDigit = true ∨ c = '-' := by
  intro c hc
  have hdata : (strftime_Ymd d).data =
      (zfill 4 (decRepr d.year) ++ ('-' :: zfill 2 (decRepr d.month))) ++
        ('-' :: zfill 2 (decRepr d.day)) := rfl
  rw [hdata] at hc
  rcases List.mem_append.mp hc with h | h
  · rcases List.mem_append.mp h with h | h
    · exact Or.inl (zfill_chars 4 d.year c h)
    · rcases List.mem_cons.mp h with rfl | h
      · exact Or.inr rfl
      · exact Or.inl (zfill_chars 2 d.month c h)
  · rcases List.mem_cons.mp h with rfl | h
    · exact Or.inr rfl
    · exact Or.inl (zfill_chars 2 d.day c h)

/-- The substring test agrees with `List.IsInfix`. -/
theorem containsSub_iff :
    ∀ hay needle : List Char, containsSub hay needle = true ↔ needle <:+: hay
  | [], needle => by
    rw [containsSub]
    cases needle with
    | nil => simp [List.isPrefixOf]
    | cons c cs => simp [List.isPrefixOf]
  | h :: t, needle => by
    rw [containsSub]
    by_cases hp : needle.isPrefixOf (h :: t) = true
    · rw [if_pos hp]
      exact iff_of_true rfl (List.isPrefixOf_iff_prefix.mp hp).isInfix
    · have hnp : ¬ needle <+: (h :: t) := fun hx =>
        hp (List.isPrefixOf_iff_prefix.mpr hx)
      rw [if_neg hp, containsSub_iff t needle, List.infix_cons_iff]
      simp [hnp]

/-- An infix of `a ++ b` either lies inside `a` or contains a character of
`b`. -/
theorem infix_append_cases :
    ∀ (a : List Char) {s b : List Char},
      s <:+: a ++ b → s <:+: a ∨ ∃ c ∈ s, c ∈ b
  | [], s, b, h => by
    cases s with
    | nil => exact Or.inl List.nil_infix
    | cons c cs => exact Or.inr ⟨c, by simp, h.subset (by simp)⟩
  | x :: a2, s, b, h => by
    rw [List.cons_append, List.infix_cons_iff] at h
    rcases h with hpre | hinf
    · by_cases hlen : s.length ≤ (x :: a2).length
      · left
        have heq := List.prefix_iff_eq_take.mp hpre
        rw [show x :: (a2 ++ b) = (x :: a2) ++ b from rfl,
          List.take_append_eq_append_take, Nat.sub_eq_zero_of_le hlen] at heq
        simp only [List.take_zero, List.append_nil] at heq
        exact (heq ▸ List.take_prefix _ _).isInfix
      · push_neg at hlen
        cases b with
        | nil =>
          left
          have hs : s <+: (x :: a2) := by simpa using hpre
          exact hs.isInfix
        | cons bb b2 =>
          right
          have heq := List.prefix_iff_eq_take.mp hpre
          rw [show x :: (a2 ++ bb :: b2) = (x :: a2) ++ bb :: b2 from rfl,
            List.take_append_eq_append_take] at heq
          have hk : 0 < s.length - (x :: a2).length := Nat.sub_pos_of_lt hlen
          refine ⟨bb, ?_, by simp⟩
          rw [heq, (Nat.succ_pred_eq_of_pos hk).symm, List.take_succ_cons]
          simp
    · rcases infix_append_cases a2 hinf with h1 | h2
      · exact Or.inl (h1.trans (List.suffix_cons x a2).isInfix)
      · exact Or.inr h2

/-! ## Claim C6 (confirmed) -/

/-- C6: for every date, any category outside
`{wirtschaft, inland, ausland, all}` makes the URL builder raise
`ValueError`; category `"all"` produces a URL in which the string `ressort`
does not occur at all; each of the three named categories produces a URL
containing `ressort=<category>`. -/
theorem C6_archive_url (d : Date) (c : String) :
    (c ∉ (["wirtschaft", "inland", "ausland", "all"] : List String) →
      create_url_for_news_archive d c = .error .valueError) ∧
    (create_url_for_news_archive d "all" =
        .ok ("https://www.tagesschau.de/archiv/?datum=" ++ strftime_Ymd d) ∧
      containsSub
        ("https://www.tagesschau.de/archiv/?datum=" ++ strftime_Ymd d).data
        "ressort".data = false) ∧
    (c ∈ (["wirtschaft", "inland", "ausland"] : List String) →
      ∃ u, create_url_for_news_archive d c = .ok u ∧
        containsSub u.data ("ressort=" ++ c).data = true) := by
  refine ⟨?_, ⟨?_, ?_⟩, ?_⟩
  · intro h
    have h1 : c ∉ (["wirtschaft", "inland", "ausland"] : List String) :=
      fun hx => h (by simp at hx ⊢; tauto)
    have h2 : c ≠ "all" := fun hx => h (by simp [hx])
    simp only [List.mem_cons, List.not_mem_nil, or_false] at h1
    push_neg at h1
    obtain ⟨e1, e2, e3⟩ := h1
    simp [create_url_for_news_archive, e1, e2, e3, h2]
  · simp [create_url_for_news_archive]
  · rw [data_append]
    by_contra hcon
    rw [Bool.not_eq_false] at hcon
    have hinf := (containsSub_iff _ _).mp hcon
    rcases infix_append_cases _ hinf with h1 | ⟨ch, hch1, hch2⟩
    · have h2 := (containsSub_iff
        "https://www.tagesschau.de/archiv/?datum=".data "ressort".data).mpr h1
      exact absurd h2 (by decide)
    · have hd := strftime_chars d ch hch2
      have hlit : "ressort".data = ['r', 'e', 's', 's', 'o', 'r', 't'] := rfl
      rw [hlit] at hch1
      fin_cases hch1 <;> exact absurd hd (by decide)
  · intro hc
    have h1 : (["wirtschaft", "inland", "ausland"] : List String).contains c
        = true := by
      simp only [List.mem_cons, List.not_mem_nil, or_false] at hc
      rcases hc with rfl | rfl | rfl <;> rfl
    refine ⟨"https://www.tagesschau.de/archiv/?datum=" ++ strftime_Ymd d ++
      "&ressort=" ++ c, ?_, ?_⟩
    · simp only [create_url_for_news_archive]
      rw [if_pos h1]
    · apply (containsSub_iff _ _).mpr
      rw [data_append, data_append, data_append, data_append]
      have hlit : ("&ressort=" : String).data = '&' :: ("ressort=" : String).data := rfl
      rw [hlit]
      exact ⟨"https://www.tagesschau.de/archiv/?datum=".data ++
        (strftime_Ymd d).data ++ ['&'], [], by simp⟩

/-- C6, witness at a concrete date and categories. -/
theorem C6_witness :
    create_url_for_news_archive ⟨2022, 3, 5⟩ "sport" = .error .valueError ∧
    create_url_for_news_archive ⟨2022, 3, 5⟩ "all" =
      .ok ("https://www.tagesschau.de/archiv/?datum=" ++ strftime_Ymd ⟨2022, 3, 5⟩) ∧
    (∃ u, create_url_for_news_archive ⟨2022, 3, 5⟩ "inland" = .ok u ∧
      containsSub u.data ("ressort=" ++ "inland").data = true) :=
  ⟨(C6_archive_url ⟨2022, 3, 5⟩ "sport").1 (by decide),
    (C6_archive_url ⟨2022, 3, 5⟩ "sport").2.1.1,
    (C6_archive_url ⟨2022, 3, 5⟩ "inland").2.2 (by decide)⟩

/-! ## Helper lemmas: decimal representation round-trip -/

theorem mk_data_eq (l : List Char) : (String.mk l).data = l := rfl

theorem mk_of_data (s : String) : String.mk s.data = s := rfl

theorem ofDigitsLE_decDigitsLE :
    ∀ fuel n : Nat, n ≤ fuel → ofDigitsLE (decDigitsLE fuel n) = n
  | 0, n, h => by
    have hn : n = 0 := Nat.le_zero.mp h
    subst hn; rfl
  | fuel + 1, n, h => by
    by_cases hn : n = 0
    · subst hn; simp [decDigitsLE, ofDigitsLE]
    · have hdiv : n / 10 ≤ fuel := by
        have h1 : n / 10 < n := Nat.div_lt_self (Nat.pos_of_ne_zero hn) (by norm_num)
        omega
      simp only [decDigitsLE, if_neg hn, ofDigitsLE]
      rw [ofDigitsLE_decDigitsLE fuel (n / 10) hdiv]
      omega

theorem foldl_msd :
    ∀ (ds : List Nat) (a : Nat),
      List.foldl (fun x d => x * 10 + d) a ds.reverse =
        a * 10 ^ ds.length + ofDigitsLE ds
  | [], a => by simp [ofDigitsLE]
  | d :: ds, a => by
    simp only [List.reverse_cons, List.foldl_append, List.foldl_cons,
      List.foldl_nil, foldl_msd ds a, ofDigitsLE, List.length_cons]
    ring

theorem digitsVal?_decRepr (n : Nat) : digitsVal? (decRepr n) = some n := by
  by_cases h : n = 0
  · subst h; decide
  · have hne := decRepr_ne_nil n
    have hdig : (decRepr n).all Char.isDigit = true := by
      rw [List.all_eq_true]
      intro c hc
      exact (decRepr_chars n c hc).1
    rw [digitsVal?, if_pos ⟨hne, hdig⟩]
    congr 1
    simp only [decRepr, if_neg h]
    rw [List.foldl_map]
    rw [List.foldl_ext _ (fun x d => x * 10 + d) 0
      (fun a b hb => by
        have hlt := mem_decDigitsLE_lt n n b (List.mem_reverse.mp hb)
        show a * 10 + ((Nat.digitChar b).toNat - 48) = a * 10 + b
        rw [(digitChar_facts b hlt).2.2]
        omega)]
    rw [foldl_msd]
    simp [ofDigitsLE_decDigitsLE n n le_rfl]

theorem pyInt?_decRepr (n : Nat) : pyInt? (decRepr n) = some (n : Int) := by
  obtain ⟨c, cs, hcons⟩ := List.exists_cons_of_ne_nil (decRepr_ne_nil n)
  have hcdig : c.isDigit = true :=
    (decRepr_chars n c (by rw [hcons]; exact List.mem_cons_self c cs)).1
  have hc1 : c ≠ '-' := fun hx => by
    rw [hx] at hcdig; exact absurd hcdig (by decide)
  have hc2 : c ≠ '+' := fun hx => by
    rw [hx] at hcdig; exact absurd hcdig (by decide)
  rw [hcons]
  simp only [pyInt?]
  rw [if_neg hc1, if_neg hc2, ← hcons, digitsVal?_decRepr]
  rfl

/-! ## Helper lemmas: Python `split` -/

theorem splitWsAux_append_no_ws :
    ∀ (a rest acc : List Char),
      (∀ c ∈ a, c.isWhitespace = false) →
      splitWsAux (a ++ rest) acc = splitWsAux rest (a.reverse ++ acc)
  | [], rest, acc, _ => by simp
  | c :: a2, rest, acc, h => by
    have hc : c.isWhitespace = false := h c (List.mem_cons_self c a2)
    rw [List.cons_append]
    simp only [splitWsAux]
    rw [if_neg (by rw [hc]; exact Bool.false_ne_true)]
    rw [splitWsAux_append_no_ws a2 rest (c :: acc)
      (fun x hx => h x (List.mem_cons_of_mem c hx))]
    simp

theorem splitWsAux_space (rest acc : List Char) :
    splitWsAux (' ' :: rest) acc =
      if acc.isEmpty then splitWsAux rest []
      else acc.reverse :: splitWsAux rest [] := rfl

theorem reverse_isEmpty_false (l : List Char) (h : l ≠ []) :
    l.reverse.isEmpty = false := by
  cases hr : l.reverse with
  | nil => exact absurd (by simpa using hr) h
  | cons x xs => rfl

/-- Python `split()` of `<t1> <t2> <t3>` for non-empty whitespace-free
tokens. -/
theorem pySplit_three (t1 t2 t3 : List Char)
    (h1 : t1 ≠ []) (h2 : t2 ≠ []) (h3 : t3 ≠ [])
    (w1 : ∀ c ∈ t1, c.isWhitespace = false)
    (w2 : ∀ c ∈ t2, c.isWhitespace = false)
    (w3 : ∀ c ∈ t3, c.isWhitespace = false) :
    pySplit (t1 ++ ' ' :: (t2 ++ ' ' :: t3)) = [t1, t2, t3] := by
  unfold pySplit
  rw [splitWsAux_append_no_ws t1 _ [] w1, List.append_nil, splitWsAux_space,
    if_neg (by rw [reverse_isEmpty_false t1 h1]; exact Bool.false_ne_true),
    List.reverse_reverse]
  rw [splitWsAux_append_no_ws t2 _ [] w2, List.append_nil, splitWsAux_space,
    if_neg (by rw [reverse_isEmpty_false t2 h2]; exact Bool.false_ne_true),
    List.reverse_reverse]
  have ht3 : splitWsAux t3 [] = [t3] := by
    have := splitWsAux_append_no_ws t3 [] [] w3
    rw [List.append_nil, List.append_nil] at this
    rw [this, splitWsAux]
    rw [if_neg (by rw [reverse_isEmpty_false t3 h3]; exact Bool.false_ne_true),
      List.reverse_reverse]
  rw [ht3]

/-! ## Helper lemmas: headline parsing -/

/-- Reduction of the headline parser once the token split is known. -/
theorem parse_of_split (s : String) (t1 t2 t3 : List Char)
    (hsplit : pySplit s.data = [t1, t2, t3]) :
    transform_date_in_headline_to_date s =
      (match pyInt? t1.dropLast,
          List.indexOf? (String.mk t2) german_month_names, pyInt? t3 with
        | some day, some month, some year => pyDate? year (month : Int) day
        | _, _, _ => none) := by
  simp only [transform_date_in_headline_to_date, hsplit]

/-- The round-trip through one month name: if the month table at `d.month` is
the whitespace-free non-empty `nameStr`, and looking `nameStr` up returns
`d.month`, then parsing the rendered headline recovers `d`. -/
theorem headline_roundtrip_master (d : Date) (hv : isValidDate d = true)
    (nameStr : String) (hne : nameStr.data ≠ [])
    (hws : ∀ c ∈ nameStr.data, c.isWhitespace = false)
    (hidx : List.indexOf? nameStr german_month_names = some d.month)
    (hname : german_month_names.getD d.month "" = nameStr) :
    transform_date_in_headline_to_date
      (transform_date_to_date_in_headline d) = some d := by
  obtain ⟨y, m, dd⟩ := d
  simp only [isValidDate, Bool.and_eq_true, decide_eq_true_eq] at hv
  obtain ⟨⟨⟨⟨⟨hy1, hy2⟩, hm1⟩, hm2⟩, hd1⟩, hd2⟩ := hv
  have hdata : (transform_date_to_date_in_headline ⟨y, m, dd⟩).data =
      (decRepr dd ++ ['.']) ++ ' ' :: (nameStr.data ++ ' ' :: decRepr y) := by
    simp only [transform_date_to_date_in_headline] at hname ⊢
    rw [mk_data_eq, hname]
    simp
  have hsplit : pySplit
      (transform_date_to_date_in_headline ⟨y, m, dd⟩).data =
      [decRepr dd ++ ['.'], nameStr.data, decRepr y] := by
    rw [hdata]
    exact pySplit_three _ _ _ (by simp) hne (decRepr_ne_nil y)
      (fun c hc => by
        rcases List.mem_append.mp hc with h | h
        · exact (decRepr_chars dd c h).2
        · simp only [List.mem_singleton] at h; subst h; rfl)
      hws (fun c hc => (decRepr_chars y c hc).2)
  rw [parse_of_split _ _ _ _ hsplit, List.dropLast_concat, pyInt?_decRepr,
    mk_of_data, hidx, pyInt?_decRepr]
  show pyDate? (y : Int) (m : Int) (dd : Int) = some ⟨y, m, dd⟩
  rw [pyDate?, if_pos (by simp only [Int.toNat_ofNat]; omega)]
  simp

/-! ## Claim C3 (confirmed) -/

/-- C3: for every valid calendar date, rendering it as the localized headline
string (`"{day}. {month name} {year}"`) and parsing that string back yields
the same date. -/
theorem C3_headline_roundtrip (d : Date) (hv : isValidDate d = true) :
    transform_date_in_headline_to_date
      (transform_date_to_date_in_headline d) = some d := by
  obtain ⟨y, m, dd⟩ := d
  have hv' := hv
  simp only [isValidDate, Bool.and_eq_true, decide_eq_true_eq] at hv'
  obtain ⟨⟨⟨⟨⟨hy1, hy2⟩, hm1⟩, hm2⟩, hd1⟩, hd2⟩ := hv'
  interval_cases m
  · exact headline_roundtrip_master ⟨y, 1, dd⟩ hv "Januar" (by decide)
      (by decide)
      (by decide : List.indexOf? "Januar" german_month_names = some 1) rfl
  · exact headline_roundtrip_master ⟨y, 2, dd⟩ hv "Februar" (by decide)
      (by decide)
      (by decide : List.indexOf? "Februar" german_month_names = some 2) rfl
  · exact headline_roundtrip_master ⟨y, 3, dd⟩ hv "März" (by decide)
      (by decide)
      (by decide : List.indexOf? "März" german_month_names = some 3) rfl
  · exact headline_roundtrip_master ⟨y, 4, dd⟩ hv "April" (by decide)
      (by decide)
      (by decide : List.indexOf? "April" german_month_names = some 4) rfl
  · exact headline_roundtrip_master ⟨y, 5, dd⟩ hv "Mai" (by decide)
      (by decide)
      (by decide : List.indexOf? "Mai" german_month_names = some 5) rfl
  · exact headline_roundtrip_master ⟨y, 6, dd⟩ hv "Juni" (by decide)
      (by decide)
      (by decide : List.indexOf? "Juni" german_month_names = some 6) rfl
  · exact headline_roundtrip_master ⟨y, 7, dd⟩ hv "Juli" (by decide)
      (by decide)
      (by decide : List.indexOf? "Juli" german_month_names = some 7) rfl
  · exact headline_roundtrip_master ⟨y, 8, dd⟩ hv "August" (by decide)
      (by decide)
      (by decide : List.indexOf? "August" german_month_names = some 8) rfl
  · exact headline_roundtrip_master ⟨y, 9, dd⟩ hv "September" (by decide)
      (by decide)
      (by decide : List.indexOf? "September" german_month_names = some 9) rfl
  · exact headline_roundtrip_master ⟨y, 10, dd⟩ hv "Oktober" (by decide)
      (by decide)
      (by decide : List.indexOf? "Oktober" german_month_names = some 10) rfl
  · exact headline_roundtrip_master ⟨y, 11, dd⟩ hv "November" (by decide)
      (by decide)
      (by decide : List.indexOf? "November" german_month_names = some 11) rfl
  · exact headline_roundtrip_master ⟨y, 12, dd⟩ hv "Dezember" (by decide)
      (by decide)
      (by decide : List.indexOf? "Dezember" german_month_names = some 12) rfl

/-- C3, witness at a concrete date. -/
theorem C3_witness :
    isValidDate ⟨2022, 10, 14⟩ = true ∧
    transform_date_in_headline_to_date
      (transform_date_to_date_in_headline ⟨2022, 10, 14⟩) =
        some ⟨2022, 10, 14⟩ :=
  ⟨by decide, C3_headline_roundtrip ⟨2022, 10, 14⟩ (by decide)⟩

end Tagesschau
